/-
Verification of the n3store-sync specification against the source.

The development shallowly embeds the repository's TypeScript modules:
`sync-store.ts` (the `SyncStore` event-dispatching wrappers, in its two
revisions where the claims cite both) and `orama-store.ts` (`generateQuadId`,
`quadToOramaDoc`, `generateMockEmbedding`, the `OramaStore` event listeners,
`isInSync`, `vectorSearch`).

External collaborators whose implementations are not part of the repository
(the N3 fact store's set semantics and the Orama search index's
upsert/remove/count/getByID/search contract) are modelled from the
specification's explicit contract sections (marked `Modelled from the spec:`).

`Math.sin` is floating point; the embedding function is therefore
parameterised over an arbitrary function `sinF : Int → ℚ` standing for
`Math.sin`, which is enough for every claim about the embedding provider
(fixed dimension, determinism, totality on the empty string).
-/
import Mathlib

namespace N3Sync

/-- An RDF term as modelled by the N3 `DataFactory`: a named node (IRI), a
blank node label, a literal with optional language tag and optional datatype,
or the default graph marker. -/
inductive Term where
  | namedNode (value : String)
  | blankNode (value : String)
  | literal (value : String) (language : Option String) (datatype : Option String)
  | defaultGraph
  deriving DecidableEq, Repr

/-- Embedding of `term.value` in N3: the lexical value; the default graph has value `""`. -/
def Term.value : Term → String
  | .namedNode v => v
  | .blankNode v => v
  | .literal v _ _ => v
  | .defaultGraph => ""

/-- Embedding of `term.termType` in N3. -/
def Term.termType : Term → String
  | .namedNode _ => "NamedNode"
  | .blankNode _ => "BlankNode"
  | .literal _ _ _ => "Literal"
  | .defaultGraph => "DefaultGraph"

/-- An RDF quad (fact): subject, predicate, object, graph. -/
structure Quad where
  subject : Term
  predicate : Term
  object : Term
  graph : Term
  deriving DecidableEq, Repr

/-- Embedding of `quad.object.termType === "Literal" ? (quad.object.language ?? "") : ""`
from `generateQuadId` / `quadToOramaDoc`. -/
def objectLanguageOf (q : Quad) : String :=
  match q.object with
  | .literal _ lang _ => lang.getD ""
  | _ => ""

/-- Embedding of `quad.object.termType === "Literal" ? (quad.object.datatype?.value ?? "") : ""`
from `generateQuadId` / `quadToOramaDoc`. -/
def objectDatatypeOf (q : Quad) : String :=
  match q.object with
  | .literal _ _ dt => dt.getD ""
  | _ => ""

/-- Embedding of `generateQuadId` from `orama-store.ts`: the deterministic document id,
built by the template literal
`` `${subject}|${predicate}|${object}|${graph}|${objectType}|${objectLanguage}|${objectDatatype}` ``. -/
def generateQuadId (q : Quad) : String :=
  q.subject.value ++ "|" ++ q.predicate.value ++ "|" ++ q.object.value ++ "|"
    ++ q.graph.value ++ "|" ++ q.object.termType ++ "|"
    ++ objectLanguageOf q ++ "|" ++ objectDatatypeOf q

/-- The seven logical key components of a fact, in the fixed order used by
`generateQuadId`. -/
def quadComponents (q : Quad) :
    String × String × String × String × String × String × String :=
  (q.subject.value, q.predicate.value, q.object.value, q.graph.value,
    q.object.termType, objectLanguageOf q, objectDatatypeOf q)

/-- JavaScript `ToInt32`: reduce an integer modulo `2^32` into
`[-2^31, 2^31)`.  This is what both `<< 5` and `& a` apply to their result in
`generateMockEmbedding`. -/
def toInt32 (n : Int) : Int :=
  (n + 2147483648) % 4294967296 - 2147483648

/-- The UTF-16 code units of a character, as produced by JavaScript
`text.split("")` followed by `charCodeAt(0)` (astral characters split into a
surrogate pair). -/
def charUtf16 (c : Char) : List Nat :=
  if c.toNat < 65536 then [c.toNat]
  else [55296 + (c.toNat - 65536) / 1024, 56320 + (c.toNat - 65536) % 1024]

/-- The UTF-16 code-unit sequence of a string. -/
def utf16Units (s : String) : List Nat :=
  (s.data.map charUtf16).flatten

/-- The hash accumulator step of `generateMockEmbedding`:
`a = ((a << 5) - a) + b.charCodeAt(0); return a & a;` with JavaScript 32-bit
coercions made explicit. -/
def hashStep (a : Int) (code : Nat) : Int :=
  toInt32 (toInt32 (a * 32) - a + code)

/-- The hash of `generateMockEmbedding`:
`text.split("").reduce((a, b) => ..., 0)`. -/
def hashString (text : String) : Int :=
  (utf16Units text).foldl hashStep 0

/-- Embedding of `generateMockEmbedding` from `orama-store.ts`: a 384-entry array is
filled with `0` and then each index `i` is overwritten with
`Math.sin(hash + i) * 0.5`.  `Math.sin` is abstracted as `sinF`. -/
def generateMockEmbedding (sinF : Int → ℚ) (text : String) : List ℚ :=
  let hash := hashString text
  (List.range 384).foldl
    (fun embedding i => embedding.set i (sinF (hash + i) * (1 / 2)))
    (List.replicate 384 (0 : ℚ))

/-- The Orama document schema from `orama-store.ts` (with the four
embedding vectors of the vector-search revision). -/
structure OramaDoc where
  id : String
  subject : String
  predicate : String
  object : String
  graph : String
  objectType : String
  objectValue : String
  objectLanguage : String
  objectDatatype : String
  subjectEmbedding : List ℚ
  predicateEmbedding : List ℚ
  objectEmbedding : List ℚ
  combinedEmbedding : List ℚ
  deriving DecidableEq, Repr

/-- Embedding of `quadToOramaDoc` from `orama-store.ts`, parameterised over the embedding
provider `embed` (instantiated with `generateMockEmbedding sinF` by the
store). -/
def quadToOramaDoc (embed : String → List ℚ) (q : Quad) (id : String) : OramaDoc :=
  let objectType := q.object.termType
  let objectValue := q.object.value
  let objectLanguage := objectLanguageOf q
  let objectDatatype := objectDatatypeOf q
  let subjectEmbedding := embed q.subject.value
  let predicateEmbedding := embed q.predicate.value
  let objectEmbedding := embed objectValue
  let quadText := q.subject.value ++ " " ++ q.predicate.value ++ " " ++ objectValue
  let combinedEmbedding := embed quadText
  { id := id
    subject := q.subject.value
    predicate := q.predicate.value
    object := objectValue
    graph := q.graph.value
    objectType := objectType
    objectValue := objectValue
    objectLanguage := objectLanguage
    objectDatatype := objectDatatype
    subjectEmbedding := subjectEmbedding
    predicateEmbedding := predicateEmbedding
    objectEmbedding := objectEmbedding
    combinedEmbedding := combinedEmbedding }

/-- The texts passed to the embedding provider by `quadToOramaDoc`, one entry
per `generateMockEmbedding` call site in source order (subject, predicate,
object, then the space-joined quad text). -/
def quadToOramaDocWithLog (embed : String → List ℚ) (q : Quad) (id : String) :
    OramaDoc × List String :=
  let objectValue := q.object.value
  let call1 := q.subject.value
  let call2 := q.predicate.value
  let call3 := objectValue
  let call4 := q.subject.value ++ " " ++ q.predicate.value ++ " " ++ objectValue
  (quadToOramaDoc embed q id, [call1, call2, call3, call4])

/-- Modelled from the spec: the base N3 fact store holds a *set* of facts
("Facts are set members: identical facts ... are not duplicated by the
FactStore", §3); `addOne` adds a fact not already present.  The store itself
is an external collaborator (§1), so its mutation semantics are taken from
the spec's FactStore contract (§6). -/
def storeAddQuad (s : List Quad) (q : Quad) : List Quad :=
  if q ∈ s then s else s ++ [q]

/-- Modelled from the spec: `removeOne` of the FactStore contract (§6)
removes the fact if present, and is a no-op otherwise. -/
def storeRemoveQuad : List Quad → Quad → List Quad
  | [], _ => []
  | x :: t, q => if x = q then t else x :: storeRemoveQuad t q

/-- Does a quad match an N3 `getQuads` pattern?  `none` is a wildcard
(`null` in the source), `some t` matches on term equality. -/
def matchesPattern (s p o g : Option Term) (q : Quad) : Bool :=
  (match s with | none => true | some t => decide (q.subject = t)) &&
  (match p with | none => true | some t => decide (q.predicate = t)) &&
  (match o with | none => true | some t => decide (q.object = t)) &&
  (match g with | none => true | some t => decide (q.graph = t))

/-- Modelled from the spec: `queryPattern` of the FactStore contract (§6) —
N3's `getQuads(s, p, o, g)` — returns the facts matching the pattern. -/
def getQuads (s p o g : Option Term) (store : List Quad) : List Quad :=
  store.filter (matchesPattern s p o g)

/-- Modelled from the spec: the base `removeMatches`/`deleteGraph` mutation
("pattern-based bulk remove", §4.1) deletes exactly the facts matching the
pattern. -/
def storeRemoveMatching (s p o g : Option Term) (store : List Quad) : List Quad :=
  store.filter (fun q => ! matchesPattern s p o g q)

/-- The events a `SyncStore` dispatches, one constructor per
`SyncStoreEvent` name across the two revisions in `sync-store.ts`, carrying
the `detail` payload of the corresponding `CustomEvent`. -/
inductive SyncEvent where
  | addQuad (q : Quad)
  | removeQuad (q : Quad)
  | addQuads (qs : List Quad)
  | removeQuads (qs : List Quad)
  | removeMatches (qs : List Quad)
  | deleteGraph (qs : List Quad)
  deriving DecidableEq, Repr

/-- The quads carried by an event payload. -/
def SyncEvent.quads : SyncEvent → List Quad
  | .addQuad q => [q]
  | .removeQuad q => [q]
  | .addQuads qs => qs
  | .removeQuads qs => qs
  | .removeMatches qs => qs
  | .deleteGraph qs => qs

/-- Embedding of `SyncStore.addQuad`: delegate to `super.addQuad`, then dispatch one
`ADD_QUAD` event carrying the quad, unconditionally. -/
def syncStoreAddQuad (q : Quad) (s : List Quad) : List Quad × List SyncEvent :=
  (storeAddQuad s q, [SyncEvent.addQuad q])

/-- Embedding of `SyncStore.removeQuad`: delegate to `super.removeQuad`, then dispatch one
`REMOVE_QUAD` event carrying the quad, unconditionally. -/
def syncStoreRemoveQuad (q : Quad) (s : List Quad) : List Quad × List SyncEvent :=
  (storeRemoveQuad s q, [SyncEvent.removeQuad q])

/-- Embedding of `SyncStore.removeMatches` from the first revision of `sync-store.ts`
(lines 71–91): snapshot the matching quads with `getQuads`, throw
`Error("Invalid quads")` unless the snapshot is non-empty, mutate via
`super.removeMatches`, then dispatch one `REMOVE_QUADS` event carrying the
snapshot if it is non-empty (dead guard kept from the source). -/
def removeMatchesA (s p o g : Option Term) (store : List Quad) :
    Except String (List Quad × List SyncEvent) :=
  let quadsToRemove := getQuads s p o g store
  if ! (quadsToRemove.length > 0) then .error "Invalid quads"
  else
    let store' := storeRemoveMatching s p o g store
    .ok (store',
      if quadsToRemove.length > 0 then [SyncEvent.removeQuads quadsToRemove] else [])

/-- Embedding of `SyncStore.removeMatches` from the second revision of `sync-store.ts`
(lines 220–237): snapshot the matching quads with `getQuads`, mutate via
`super.removeMatches`, then dispatch one `REMOVE_MATCHES` event carrying the
snapshot only when it is non-empty; never throws. -/
def removeMatchesB (s p o g : Option Term) (store : List Quad) :
    List Quad × List SyncEvent :=
  let quadsToRemove := getQuads s p o g store
  let store' := storeRemoveMatching s p o g store
  (store',
    if quadsToRemove.length > 0 then [SyncEvent.removeMatches quadsToRemove] else [])

/-- Embedding of `SyncStore.deleteGraph` from the first revision of `sync-store.ts`
(lines 93–115): snapshot all quads of the graph with
`getQuads(null, null, null, graph)`, mutate via `super.deleteGraph`, then
dispatch one `REMOVE_QUADS` event carrying the snapshot if non-empty. -/
def deleteGraphA (g : Term) (store : List Quad) : List Quad × List SyncEvent :=
  let quadsToRemove := getQuads none none none (some g) store
  let store' := storeRemoveMatching none none none (some g) store
  (store',
    if quadsToRemove.length > 0 then [SyncEvent.removeQuads quadsToRemove] else [])

/-- Modelled from the spec: the SearchIndex `upsert` contract (§4.5) —
"inserting a document under an existing key replaces it; never errors on
duplicate keys".  The index itself lives in the external Orama library; this
is the contract the spec fixes for it. -/
def upsert (k : String) (d : OramaDoc) : List (String × OramaDoc) → List (String × OramaDoc)
  | [] => [(k, d)]
  | (k', d') :: t => if k = k' then (k, d) :: t else (k', d') :: upsert k d t

/-- Modelled from the spec: the SearchIndex `remove` contract (§4.5) —
delete the documents stored under the key, a no-op if the key is absent;
never errors on a missing key. -/
def removeByKey (k : String) : List (String × OramaDoc) → List (String × OramaDoc)
  | [] => []
  | (k', d) :: t => if k' = k then removeByKey k t else (k', d) :: removeByKey k t

/-- Modelled from the spec: the SearchIndex `getByKey` contract (§4.5) —
Orama's `getByID`; an absent key is a normal `none` result. -/
def getByKey (k : String) : List (String × OramaDoc) → Option OramaDoc
  | [] => none
  | (k', d) :: t => if k = k' then some d else getByKey k t

/-- The state of an `OramaStore`: the wrapped `SyncStore`'s facts and the
Orama index's documents, keyed by document id. -/
structure OramaState where
  store : List Quad
  index : List (String × OramaDoc)
  deriving DecidableEq, Repr

/-- Embedding of `new OramaStore()`: an empty `SyncStore` and an empty Orama database. -/
def initialOramaState : OramaState := ⟨[], []⟩

/-- Embedding of `OramaStore.setupEventListeners`: the reaction of the Orama index to one
dispatched event.  Listeners are registered only for `ADD_QUAD`
(`insert(quadToOramaDoc(quad, generateQuadId(quad)))`) and `REMOVE_QUAD`
(`remove(generateQuadId(quad))`); every other event leaves the index
untouched. -/
def indexApplyEvent (sinF : Int → ℚ) (idx : List (String × OramaDoc)) :
    SyncEvent → List (String × OramaDoc)
  | .addQuad q =>
      let id := generateQuadId q
      upsert id (quadToOramaDoc (generateMockEmbedding sinF) q id) idx
  | .removeQuad q => removeByKey (generateQuadId q) idx
  | _ => idx

/-- Embedding of `OramaStore.addQuad`: call `syncStore.addQuad`, whose dispatched events
are applied synchronously by the listeners; returns the new state and the
dispatched events. -/
def oramaStoreAddQuad (sinF : Int → ℚ) (q : Quad) (st : OramaState) :
    OramaState × List SyncEvent :=
  let (s', evs) := syncStoreAddQuad q st.store
  (⟨s', evs.foldl (indexApplyEvent sinF) st.index⟩, evs)

/-- Embedding of `OramaStore.removeQuad`: call `syncStore.removeQuad`; the dispatched
events are applied synchronously by the listeners. -/
def oramaStoreRemoveQuad (sinF : Int → ℚ) (q : Quad) (st : OramaState) :
    OramaState × List SyncEvent :=
  let (s', evs) := syncStoreRemoveQuad q st.store
  (⟨s', evs.foldl (indexApplyEvent sinF) st.index⟩, evs)

/-- One iteration of the `OramaStore.addQuads` loop, with the dispatched
events accumulated in call order. -/
def addQuadsStep (sinF : Int → ℚ) (acc : OramaState × List SyncEvent) (q : Quad) :
    OramaState × List SyncEvent :=
  let (st', evs) := oramaStoreAddQuad sinF q acc.1
  (st', acc.2 ++ evs)

/-- One iteration of the `OramaStore.removeQuads` loop, with the dispatched
events accumulated in call order. -/
def removeQuadsStep (sinF : Int → ℚ) (acc : OramaState × List SyncEvent) (q : Quad) :
    OramaState × List SyncEvent :=
  let (st', evs) := oramaStoreRemoveQuad sinF q acc.1
  (st', acc.2 ++ evs)

/-- Embedding of `OramaStore.addQuads`: `for (const quad of quads) this.syncStore.addQuad(quad)`,
accumulating the dispatched events in call order. -/
def oramaStoreAddQuads (sinF : Int → ℚ) (qs : List Quad) (st : OramaState) :
    OramaState × List SyncEvent :=
  qs.foldl (addQuadsStep sinF) (st, [])

/-- Embedding of `OramaStore.removeQuads`: `for (const quad of quads) this.syncStore.removeQuad(quad)`,
accumulating the dispatched events in call order. -/
def oramaStoreRemoveQuads (sinF : Int → ℚ) (qs : List Quad) (st : OramaState) :
    OramaState × List SyncEvent :=
  qs.foldl (removeQuadsStep sinF) (st, [])

/-- Embedding of `OramaStore.getSize`: the number of quads in the `SyncStore`. -/
def getSize (st : OramaState) : Nat := st.store.length

/-- Embedding of `OramaStore.getDocumentCount`: Orama's `count`. -/
def getDocumentCount (st : OramaState) : Nat := st.index.length

/-- Embedding of `OramaStore.isInSync`: `storeSize === oramaCount`. -/
def isInSync (st : OramaState) : Bool := getSize st == getDocumentCount st

/-- An elementary mutation call on the `OramaStore`. -/
inductive MutOp where
  | add (q : Quad)
  | remove (q : Quad)
  deriving DecidableEq, Repr

/-- The quad an elementary mutation carries. -/
def MutOp.quad : MutOp → Quad
  | .add q => q
  | .remove q => q

/-- The state transition of one elementary mutation call. -/
def runStep (sinF : Int → ℚ) (st : OramaState) : MutOp → OramaState
  | .add q => (oramaStoreAddQuad sinF q st).1
  | .remove q => (oramaStoreRemoveQuad sinF q st).1

/-- Run an interleaving of `addQuad`/`removeQuad` calls against a freshly
constructed `OramaStore`. -/
def runOps (sinF : Int → ℚ) (ops : List MutOp) : OramaState :=
  ops.foldl (runStep sinF) initialOramaState

/-- The quads mentioned by an interleaving of mutation calls. -/
def opsQuads (ops : List MutOp) : List Quad := ops.map MutOp.quad

/-- Injectivity of `generateQuadId` on the given quads: no two distinct
facts among them share a derived key. -/
def KeyInjOn (S : List Quad) : Prop :=
  ∀ q₁ ∈ S, ∀ q₂ ∈ S, generateQuadId q₁ = generateQuadId q₂ → q₁ = q₂

instance (S : List Quad) : Decidable (KeyInjOn S) := by
  unfold KeyInjOn; infer_instance

/-- The synchronisation invariant: the store holds a set of facts drawn from
`S`, and the index keys are exactly the derived keys of the store's facts,
in store order. -/
def SyncInv (S : List Quad) (st : OramaState) : Prop :=
  st.store.Nodup
    ∧ st.index.map Prod.fst = st.store.map generateQuadId
    ∧ ∀ q ∈ st.store, q ∈ S

/-- The error taxonomy of §7 for query validation. -/
inductive SearchValidationError where
  | invalidSimilarity (v : ℚ)
  | unknownField (name : String)
  deriving DecidableEq, Repr

/-- The four named vector fields of the schema. -/
def validVectorFields : List String :=
  ["subjectEmbedding", "predicateEmbedding", "objectEmbedding", "combinedEmbedding"]

/-- The selected vector field of a document. -/
def fieldVec (property : String) (d : OramaDoc) : List ℚ :=
  if property = "subjectEmbedding" then d.subjectEmbedding
  else if property = "predicateEmbedding" then d.predicateEmbedding
  else if property = "objectEmbedding" then d.objectEmbedding
  else d.combinedEmbedding

/-- Insert a scored document into a list sorted by descending score. -/
def insertScored (x : OramaDoc × ℚ) : List (OramaDoc × ℚ) → List (OramaDoc × ℚ)
  | [] => [x]
  | y :: t => if y.2 ≤ x.2 then x :: y :: t else y :: insertScored x t

/-- Sort scored documents by descending score. -/
def sortScored (l : List (OramaDoc × ℚ)) : List (OramaDoc × ℚ) :=
  l.foldr insertScored []

/-- Modelled from the spec: the SearchIndex vector-search contract (§4.5) —
reject a `minSimilarity` outside `[0, 1]` with a ValidationError, reject an
unrecognised vector field name, otherwise keep the documents whose selected
field scores at least `minSimilarity` under the similarity measure `sim`
(cosine similarity in the spec; kept abstract because it is real-valued),
rank descending and truncate to `limit`.  The concrete search engine is the
external Orama library. -/
def vectorSearchIndex (sim : List ℚ → List ℚ → ℚ) (idx : List (String × OramaDoc))
    (queryVec : List ℚ) (property : String) (minSimilarity : ℚ) (limit : Nat) :
    Except SearchValidationError (List (OramaDoc × ℚ)) :=
  if minSimilarity < 0 ∨ 1 < minSimilarity then
    .error (.invalidSimilarity minSimilarity)
  else if property ∉ validVectorFields then
    .error (.unknownField property)
  else
    let scored := idx.map (fun p => (p.2, sim queryVec (fieldVec property p.2)))
    let kept := scored.filter (fun x => minSimilarity ≤ x.2)
    .ok ((sortScored kept).take limit)

/-- Embedding of `OramaStore.vectorSearch`: embed the query text with
`generateMockEmbedding` and search the index; a pure query, so the state is
returned unchanged. -/
def vectorSearch (sinF : Int → ℚ) (sim : List ℚ → List ℚ → ℚ) (st : OramaState)
    (query property : String) (similarity : ℚ) (limit : Nat) :
    Except SearchValidationError (List (OramaDoc × ℚ)) × OramaState :=
  let queryEmbedding := generateMockEmbedding sinF query
  (vectorSearchIndex sim st.index queryEmbedding property similarity limit, st)

/-- Split a character list at every occurrence of `sep` (used to show that
`generateQuadId` is injective on delimiter-free components). -/
def splitSep (sep : Char) : List Char → List (List Char)
  | [] => [[]]
  | c :: cs =>
    if c = sep then [] :: splitSep sep cs
    else
      match splitSep sep cs with
      | [] => [[c]]
      | h :: t => (c :: h) :: t

/-- A string free of the `generateQuadId` delimiter. -/
def delimFree (s : String) : Prop := '|' ∉ s.data

instance (s : String) : Decidable (delimFree s) := by
  unfold delimFree; infer_instance

/-- All six raw-text key components of a quad are delimiter-free (the spec's
"barring delimiter collisions in raw text" proviso, §3). -/
def QuadDelimFree (q : Quad) : Prop :=
  delimFree q.subject.value ∧ delimFree q.predicate.value ∧
    delimFree q.object.value ∧ delimFree q.graph.value ∧
    delimFree (objectLanguageOf q) ∧ delimFree (objectDatatypeOf q)

instance (q : Quad) : Decidable (QuadDelimFree q) := by
  unfold QuadDelimFree; infer_instance

/-- A sample quad used to instantiate hypothesis-carrying theorems. -/
def qSample1 : Quad :=
  ⟨.namedNode "http://example.org/person1", .namedNode "http://example.org/name",
    .literal "Alice" none none, .defaultGraph⟩

/-- A second sample quad, differing from `qSample1` in its object value. -/
def qSample2 : Quad :=
  ⟨.namedNode "http://example.org/person1", .namedNode "http://example.org/name",
    .literal "Bob" none none, .defaultGraph⟩

/-- A quad whose subject is the named node `a`. -/
def qNamedSubject : Quad :=
  ⟨.namedNode "a", .namedNode "p", .namedNode "o", .defaultGraph⟩

/-- A quad identical to `qNamedSubject` except that its subject is the blank
node labelled `a`: a distinct fact with the same derived key. -/
def qBlankSubject : Quad :=
  ⟨.blankNode "a", .namedNode "p", .namedNode "o", .defaultGraph⟩

/-- A quad with the delimiter inside its subject text. -/
def qDelim1 : Quad :=
  ⟨.namedNode "a|b", .namedNode "c", .namedNode "o", .defaultGraph⟩

/-- A quad with a different subject than `qDelim1` but the same derived key. -/
def qDelim2 : Quad :=
  ⟨.namedNode "a", .namedNode "b|c", .namedNode "o", .defaultGraph⟩

/-- A concrete stand-in for `Math.sin`, used to evaluate closed instances. -/
def sinZero : Int → ℚ := fun _ => 0

/-- A concrete stand-in for the similarity measure, used to evaluate closed
instances. -/
def simZero : List ℚ → List ℚ → ℚ := fun _ _ => 0

theorem string_data_inj {s t : String} (h : s.data = t.data) : s = t := by
  cases s; cases t; exact congrArg String.mk h

theorem splitSep_sepFree (sep : Char) (l : List Char) (h : sep ∉ l) :
    splitSep sep l = [l] := by
  induction l with
  | nil => rfl
  | cons c cs ih =>
    have hc : ¬ c = sep := by
      rintro rfl; exact h (List.mem_cons_self c cs)
    have hcs : sep ∉ cs := fun hm => h (List.mem_cons_of_mem _ hm)
    simp [splitSep, hc, ih hcs]

theorem splitSep_append (sep : Char) (a b : List Char) (h : sep ∉ a) :
    splitSep sep (a ++ sep :: b) = a :: splitSep sep b := by
  induction a with
  | nil => simp [splitSep]
  | cons c cs ih =>
    have hc : ¬ c = sep := by
      rintro rfl; exact h (List.mem_cons_self c cs)
    have hcs : sep ∉ cs := fun hm => h (List.mem_cons_of_mem _ hm)
    simp [splitSep, hc, ih hcs]

theorem generateQuadId_data (q : Quad) :
    (generateQuadId q).data =
      q.subject.value.data ++ '|' :: (q.predicate.value.data ++ '|' ::
        (q.object.value.data ++ '|' :: (q.graph.value.data ++ '|' ::
          (q.object.termType.data ++ '|' :: ((objectLanguageOf q).data ++ '|' ::
            (objectDatatypeOf q).data))))) := by
  have hbar : ("|" : String).data = ['|'] := rfl
  simp [generateQuadId, String.data_append, hbar, List.append_assoc]

theorem termType_delimFree (t : Term) : delimFree t.termType := by
  cases t <;> simp only [Term.termType] <;> decide

theorem generateQuadId_injOn (A B : Quad) (hA : QuadDelimFree A)
    (hB : QuadDelimFree B) (h : generateQuadId A = generateQuadId B) :
    quadComponents A = quadComponents B := by
  obtain ⟨hA1, hA2, hA3, hA4, hA5, hA6⟩ := hA
  obtain ⟨hB1, hB2, hB3, hB4, hB5, hB6⟩ := hB
  have hAT := termType_delimFree A.object
  have hBT := termType_delimFree B.object
  have hd := congrArg String.data h
  rw [generateQuadId_data, generateQuadId_data] at hd
  have e := congrArg (splitSep '|') hd
  rw [splitSep_append _ _ _ hA1, splitSep_append _ _ _ hA2,
    splitSep_append _ _ _ hA3, splitSep_append _ _ _ hA4,
    splitSep_append _ _ _ hAT, splitSep_append _ _ _ hA5,
    splitSep_sepFree _ _ hA6, splitSep_append _ _ _ hB1,
    splitSep_append _ _ _ hB2, splitSep_append _ _ _ hB3,
    splitSep_append _ _ _ hB4, splitSep_append _ _ _ hBT,
    splitSep_append _ _ _ hB5, splitSep_sepFree _ _ hB6] at e
  simp only [List.cons.injEq, and_true] at e
  obtain ⟨e1, e2, e3, e4, e5, e6, e7⟩ := e
  simp only [quadComponents, Prod.mk.injEq]
  exact ⟨string_data_inj e1, string_data_inj e2, string_data_inj e3,
    string_data_inj e4, string_data_inj e5, string_data_inj e6, string_data_inj e7⟩

theorem generateQuadId_congr (A B : Quad)
    (h : quadComponents A = quadComponents B) :
    generateQuadId A = generateQuadId B := by
  simp only [quadComponents, Prod.mk.injEq] at h
  obtain ⟨h1, h2, h3, h4, h5, h6, h7⟩ := h
  simp only [generateQuadId, h1, h2, h3, h4, h5, h6, h7]

/-- C3 (amended): `generateQuadId` is deterministic and is the fixed-order
`|`-joined concatenation of the seven components (subject, predicate, object
value, graph, object term type, language defaulting to the empty string,
datatype defaulting to the empty string); and, for quads whose raw component
texts do not contain the delimiter `|`, two quads get the same key exactly
when all seven components agree — in particular facts differing in any of
the seven components get different keys. -/
theorem c3_generateQuadId_key_theorem :
    (∀ q : Quad, generateQuadId q =
      q.subject.value ++ "|" ++ q.predicate.value ++ "|" ++ q.object.value ++ "|"
        ++ q.graph.value ++ "|" ++ q.object.termType ++ "|"
        ++ objectLanguageOf q ++ "|" ++ objectDatatypeOf q)
    ∧ (∀ A B : Quad, A = B → generateQuadId A = generateQuadId B)
    ∧ (∀ A B : Quad, QuadDelimFree A → QuadDelimFree B →
        (generateQuadId A = generateQuadId B ↔ quadComponents A = quadComponents B)) :=
  ⟨fun _ => rfl, fun A B h => by rw [h],
    fun A B hA hB =>
      ⟨generateQuadId_injOn A B hA hB, generateQuadId_congr A B⟩⟩

/-- Witness for C3: the amended theorem applied to two concrete
delimiter-free quads differing in their object value shows their keys
differ. -/
theorem c3_generateQuadId_key_witness :
    QuadDelimFree qSample1 ∧ QuadDelimFree qSample2 ∧
      generateQuadId qSample1 ≠ generateQuadId qSample2 := by
  refine ⟨by decide, by decide, fun h => ?_⟩
  have := (c3_generateQuadId_key_theorem.2.2 qSample1 qSample2
    (by decide) (by decide)).mp h
  revert this
  decide

/-- Counterexample for C3 as frozen: `qDelim1` and `qDelim2` differ in their
subject (`a|b` vs `a`), yet `generateQuadId` maps them to the same key,
because the raw text contains the delimiter. -/
theorem c3_generateQuadId_key_counterexample :
    qDelim1.subject.value ≠ qDelim2.subject.value ∧
      generateQuadId qDelim1 = generateQuadId qDelim2 := by
  constructor
  · decide
  · decide

theorem upsert_map_fst (k : String) (d : OramaDoc) (idx : List (String × OramaDoc)) :
    (upsert k d idx).map Prod.fst =
      if k ∈ idx.map Prod.fst then idx.map Prod.fst else idx.map Prod.fst ++ [k] := by
  induction idx with
  | nil => simp [upsert]
  | cons p t ih =>
    obtain ⟨k', d'⟩ := p
    by_cases hk : k = k'
    · subst hk; simp [upsert]
    · by_cases hm : k ∈ t.map Prod.fst
      · simp [upsert, hk, hm, ih]
      · simp [upsert, hk, hm, ih]

theorem upsert_length (k : String) (d : OramaDoc) (idx : List (String × OramaDoc)) :
    (upsert k d idx).length =
      if k ∈ idx.map Prod.fst then idx.length else idx.length + 1 := by
  induction idx with
  | nil => simp [upsert]
  | cons p t ih =>
    obtain ⟨k', d'⟩ := p
    by_cases hk : k = k'
    · subst hk; simp [upsert]
    · by_cases hm : k ∈ t.map Prod.fst
      · simp [upsert, hk, hm, ih]
      · simp [upsert, hk, hm, ih]

theorem mem_map_fst_upsert (k : String) (d : OramaDoc) (idx : List (String × OramaDoc)) :
    k ∈ (upsert k d idx).map Prod.fst := by
  rw [upsert_map_fst]
  split <;> simp_all

theorem getByKey_upsert (k : String) (d : OramaDoc) (idx : List (String × OramaDoc)) :
    getByKey k (upsert k d idx) = some d := by
  induction idx with
  | nil => simp [upsert, getByKey]
  | cons p t ih =>
    obtain ⟨k', d'⟩ := p
    by_cases hk : k = k'
    · subst hk; simp [upsert, getByKey]
    · simp [upsert, getByKey, hk, ih]

/-- C4: adding the same fact `F` twice — both additions derive the identical
key — leaves the index document count unchanged (the second apply is an
idempotent upsert, which never errors on a duplicate key), and `getByKey` on
`F`'s key returns the latest projection of `F`. -/
theorem c4_add_twice_idempotent_theorem (sinF : Int → ℚ) (st : OramaState) (F : Quad) :
    getDocumentCount (oramaStoreAddQuad sinF F (oramaStoreAddQuad sinF F st).1).1
        = getDocumentCount (oramaStoreAddQuad sinF F st).1
      ∧ getByKey (generateQuadId F)
          (oramaStoreAddQuad sinF F (oramaStoreAddQuad sinF F st).1).1.index
        = some (quadToOramaDoc (generateMockEmbedding sinF) F (generateQuadId F)) := by
  constructor
  · simp only [oramaStoreAddQuad, syncStoreAddQuad, indexApplyEvent,
      getDocumentCount, List.foldl_cons, List.foldl_nil]
    rw [upsert_length, if_pos (mem_map_fst_upsert _ _ _)]
  · simp only [oramaStoreAddQuad, syncStoreAddQuad, indexApplyEvent,
      List.foldl_cons, List.foldl_nil]
    exact getByKey_upsert _ _ _

/-- C2 (divergence at the failing input): with zero quads matching the
pattern, the `removeMatches` of the first `sync-store.ts` revision
(lines 71–91) throws `Error("Invalid quads")`, while the second revision
(lines 220–237) returns the unchanged store and emits no event — the
behaviour the spec mandates. -/
theorem c2_removeMatches_zero_match_theorem :
    removeMatchesA none none none none [] = Except.error "Invalid quads"
      ∧ removeMatchesB none none none none [] = ([], []) := by
  exact ⟨rfl, rfl⟩

theorem storeRemoveQuad_of_not_mem (s : List Quad) (q : Quad) (h : q ∉ s) :
    storeRemoveQuad s q = s := by
  induction s with
  | nil => rfl
  | cons x t ih =>
    have hx : ¬ x = q := fun he => h (he ▸ List.mem_cons_self x t)
    have ht : q ∉ t := fun hm => h (List.mem_cons_of_mem _ hm)
    simp [storeRemoveQuad, hx, ih ht]

/-- C9: a `SyncStore.addQuad` (resp. `removeQuad`) call dispatches exactly
one `ADD_QUAD` (resp. `REMOVE_QUAD`) event carrying that quad after
delegating to the base store, even when the call does not change the store
(adding an already-present quad, removing an absent quad). -/
theorem c9_one_event_per_call_theorem (q : Quad) (s : List Quad) :
    (syncStoreAddQuad q s).2 = [SyncEvent.addQuad q]
      ∧ (syncStoreRemoveQuad q s).2 = [SyncEvent.removeQuad q]
      ∧ (syncStoreAddQuad q s).1 = storeAddQuad s q
      ∧ (syncStoreRemoveQuad q s).1 = storeRemoveQuad s q
      ∧ (q ∈ s → (syncStoreAddQuad q s).1 = s)
      ∧ (q ∉ s → (syncStoreRemoveQuad q s).1 = s) := by
  refine ⟨rfl, rfl, rfl, rfl, fun hm => ?_, fun hm => ?_⟩
  · simp [syncStoreAddQuad, storeAddQuad, hm]
  · simpa [syncStoreRemoveQuad] using storeRemoveQuad_of_not_mem s q hm

/-- Witness for C9: on a store already containing the quad, `addQuad` leaves
the store unchanged yet dispatches the event; on an empty store,
`removeQuad` leaves the store unchanged yet dispatches the event. -/
theorem c9_one_event_per_call_witness :
    (syncStoreAddQuad qSample1 [qSample1]).1 = [qSample1]
      ∧ (syncStoreAddQuad qSample1 [qSample1]).2 = [SyncEvent.addQuad qSample1]
      ∧ (syncStoreRemoveQuad qSample1 []).1 = []
      ∧ (syncStoreRemoveQuad qSample1 []).2 = [SyncEvent.removeQuad qSample1] := by
  have h1 := c9_one_event_per_call_theorem qSample1 [qSample1]
  have h2 := c9_one_event_per_call_theorem qSample1 []
  exact ⟨h1.2.2.2.2.1 (by decide), h1.1, h2.2.2.2.2.2 (by decide), h2.2.1⟩

/-- C5: `deleteGraph` removes exactly the quads of the given graph, emits at
most one event whose payload is exactly the pre-mutation snapshot of that
graph's quads (no event when the graph is empty, and the payload is computed
before the mutation, never by re-querying afterwards), and both its
resulting store and its event payloads coincide with those of a
pattern-based remove with the graph fixed and subject, predicate and object
wildcarded. -/
theorem c5_deleteGraph_theorem (g : Term) (store : List Quad) :
    (deleteGraphA g store).1 = store.filter (fun q => decide (q.graph ≠ g))
      ∧ (deleteGraphA g store).2 =
          (if (getQuads none none none (some g) store).length > 0
            then [SyncEvent.removeQuads (getQuads none none none (some g) store)]
            else [])
      ∧ (deleteGraphA g store).1 = (removeMatchesB none none none (some g) store).1
      ∧ (deleteGraphA g store).2.map SyncEvent.quads
          = (removeMatchesB none none none (some g) store).2.map SyncEvent.quads := by
  refine ⟨?_, rfl, rfl, ?_⟩
  · simp only [deleteGraphA, storeRemoveMatching]
    refine List.filter_congr fun q _ => ?_
    simp [matchesPattern, decide_not]
  · simp only [deleteGraphA, removeMatchesB]
    split <;> rfl

theorem addQuadsStep_eq (sinF : Int → ℚ) (st : OramaState) (acc : List SyncEvent)
    (q : Quad) :
    addQuadsStep sinF (st, acc) q
      = ((oramaStoreAddQuad sinF q st).1, acc ++ [SyncEvent.addQuad q]) := rfl

theorem removeQuadsStep_eq (sinF : Int → ℚ) (st : OramaState) (acc : List SyncEvent)
    (q : Quad) :
    removeQuadsStep sinF (st, acc) q
      = ((oramaStoreRemoveQuad sinF q st).1, acc ++ [SyncEvent.removeQuad q]) := rfl

theorem addQuads_foldl_aux (sinF : Int → ℚ) (qs : List Quad) :
    ∀ (st : OramaState) (acc : List SyncEvent),
      qs.foldl (addQuadsStep sinF) (st, acc)
        = (qs.foldl (fun s q => (oramaStoreAddQuad sinF q s).1) st,
            acc ++ qs.map SyncEvent.addQuad) := by
  induction qs with
  | nil => intro st acc; simp
  | cons q t ih =>
    intro st acc
    rw [List.foldl_cons, addQuadsStep_eq, ih]
    simp

theorem removeQuads_foldl_aux (sinF : Int → ℚ) (qs : List Quad) :
    ∀ (st : OramaState) (acc : List SyncEvent),
      qs.foldl (removeQuadsStep sinF) (st, acc)
        = (qs.foldl (fun s q => (oramaStoreRemoveQuad sinF q s).1) st,
            acc ++ qs.map SyncEvent.removeQuad) := by
  induction qs with
  | nil => intro st acc; simp
  | cons q t ih =>
    intro st acc
    rw [List.foldl_cons, removeQuadsStep_eq, ih]
    simp

/-- C10: `OramaStore.addQuads`/`removeQuads` over a batch of `N` quads
dispatch exactly the `N` elementary `ADD_QUAD`/`REMOVE_QUAD` events, one per
quad in list order, with no batch event, and the resulting state is the fold
of the single-quad operation over the batch in list order (the index is
updated once per quad). -/
theorem c10_batch_decomposition_theorem (sinF : Int → ℚ) (qs : List Quad)
    (st : OramaState) :
    (oramaStoreAddQuads sinF qs st).2 = qs.map SyncEvent.addQuad
      ∧ (oramaStoreAddQuads sinF qs st).1
          = qs.foldl (fun s q => (oramaStoreAddQuad sinF q s).1) st
      ∧ (oramaStoreRemoveQuads sinF qs st).2 = qs.map SyncEvent.removeQuad
      ∧ (oramaStoreRemoveQuads sinF qs st).1
          = qs.foldl (fun s q => (oramaStoreRemoveQuad sinF q s).1) st := by
  have ha := addQuads_foldl_aux sinF qs st []
  have hr := removeQuads_foldl_aux sinF qs st []
  simp only [List.nil_append] at ha hr
  exact ⟨by rw [oramaStoreAddQuads, ha], by rw [oramaStoreAddQuads, ha],
    by rw [oramaStoreRemoveQuads, hr], by rw [oramaStoreRemoveQuads, hr]⟩

/-- C6: the document projection takes its object-kind tag from the object's
term type; fills the language and datatype fields from the literal (with
empty-string defaults) exactly when the object is a literal and with the
empty string otherwise; and invokes the embedding provider exactly four
times, on the subject text, the predicate text, the object text and the
space-joined `subject predicate object` text, whose results become the four
embedding fields. -/
theorem c6_quadToOramaDoc_projection_theorem (embed : String → List ℚ)
    (q : Quad) (id : String) :
    (quadToOramaDoc embed q id).objectType = q.object.termType
      ∧ (∀ v lang dt, q.object = Term.literal v lang dt →
          (quadToOramaDoc embed q id).objectLanguage = lang.getD ""
            ∧ (quadToOramaDoc embed q id).objectDatatype = dt.getD "")
      ∧ ((∀ v lang dt, q.object ≠ Term.literal v lang dt) →
          (quadToOramaDoc embed q id).objectLanguage = ""
            ∧ (quadToOramaDoc embed q id).objectDatatype = "")
      ∧ (quadToOramaDoc embed q id).subjectEmbedding = embed q.subject.value
      ∧ (quadToOramaDoc embed q id).predicateEmbedding = embed q.predicate.value
      ∧ (quadToOramaDoc embed q id).objectEmbedding = embed q.object.value
      ∧ (quadToOramaDoc embed q id).combinedEmbedding
          = embed (q.subject.value ++ " " ++ q.predicate.value ++ " " ++ q.object.value)
      ∧ (quadToOramaDocWithLog embed q id).2
          = [q.subject.value, q.predicate.value, q.object.value,
              q.subject.value ++ " " ++ q.predicate.value ++ " " ++ q.object.value]
      ∧ (quadToOramaDocWithLog embed q id).2.length = 4
      ∧ (quadToOramaDocWithLog embed q id).1 = quadToOramaDoc embed q id := by
  refine ⟨rfl, ?_, ?_, rfl, rfl, rfl, rfl, rfl, rfl, rfl⟩
  · intro v lang dt h
    constructor <;> simp [quadToOramaDoc, objectLanguageOf, objectDatatypeOf, h]
  · intro h
    cases hobj : q.object with
    | literal v lang dt => exact absurd hobj (h v lang dt)
    | namedNode v =>
      constructor <;> simp [quadToOramaDoc, objectLanguageOf, objectDatatypeOf, hobj]
    | blankNode v =>
      constructor <;> simp [quadToOramaDoc, objectLanguageOf, objectDatatypeOf, hobj]
    | defaultGraph =>
      constructor <;> simp [quadToOramaDoc, objectLanguageOf, objectDatatypeOf, hobj]

/-- Witness for C6: the projection theorem applied to a concrete quad with a
plain literal object. -/
theorem c6_quadToOramaDoc_projection_witness :
    (quadToOramaDoc (fun _ => []) qSample1 "id").objectType = "Literal"
      ∧ (quadToOramaDoc (fun _ => []) qSample1 "id").objectLanguage = ""
      ∧ (quadToOramaDoc (fun _ => []) qSample1 "id").objectDatatype = ""
      ∧ (quadToOramaDocWithLog (fun _ => []) qSample1 "id").2.length = 4 := by
  have h := c6_quadToOramaDoc_projection_theorem (fun _ => []) qSample1 "id"
  have hl := h.2.1 "Alice" none none rfl
  exact ⟨h.1, hl.1, hl.2, h.2.2.2.2.2.2.2.2.1⟩

/-- C7: a `vectorSearch` call whose `minSimilarity` lies outside `[0, 1]`
fails with a ValidationError naming that value (neither clamped nor
accepted), and the failing query leaves the fact store and the search index
unchanged. -/
theorem c7_vectorSearch_validation_theorem (sinF : Int → ℚ)
    (sim : List ℚ → List ℚ → ℚ) (st : OramaState) (query property : String)
    (similarity : ℚ) (limit : Nat) (h : similarity < 0 ∨ 1 < similarity) :
    (vectorSearch sinF sim st query property similarity limit).1
        = Except.error (SearchValidationError.invalidSimilarity similarity)
      ∧ (vectorSearch sinF sim st query property similarity limit).2 = st := by
  constructor
  · show vectorSearchIndex sim st.index (generateMockEmbedding sinF query)
      property similarity limit = _
    rw [vectorSearchIndex, if_pos h]
  · rfl

/-- Witness for C7: the validation theorem applied at `minSimilarity = 3/2`
on a freshly constructed store. -/
theorem c7_vectorSearch_validation_witness :
    ((3 : ℚ) / 2 < 0 ∨ 1 < (3 : ℚ) / 2)
      ∧ (vectorSearch sinZero simZero initialOramaState "query"
            "combinedEmbedding" (3 / 2) 10).1
          = Except.error (SearchValidationError.invalidSimilarity (3 / 2))
      ∧ (vectorSearch sinZero simZero initialOramaState "query"
            "combinedEmbedding" (3 / 2) 10).2 = initialOramaState := by
  have hh : ((3 : ℚ) / 2 < 0 ∨ 1 < (3 : ℚ) / 2) := Or.inr (by norm_num)
  have h := c7_vectorSearch_validation_theorem sinZero simZero initialOramaState
    "query" "combinedEmbedding" (3 / 2) 10 hh
  exact ⟨hh, h.1, h.2⟩

theorem map_zero_eq_replicate (l : List Nat) :
    l.map (fun _ => (0 : ℚ)) = List.replicate l.length 0 := by
  induction l with
  | nil => rfl
  | cons x t ih => simp [ih, List.replicate_succ]

theorem foldl_set_range (v : Nat → ℚ) (n : Nat) :
    ∀ k, k ≤ n →
      (List.range k).foldl (fun arr i => arr.set i (v i)) (List.replicate n (0 : ℚ))
        = (List.range n).map (fun i => if i < k then v i else 0) := by
  intro k
  induction k with
  | zero =>
    intro _
    rw [List.range_zero, List.foldl_nil]
    have : (List.range n).map (fun i => if i < 0 then v i else 0)
        = (List.range n).map (fun _ => (0 : ℚ)) :=
      List.map_congr_left fun a _ => by simp
    rw [this, map_zero_eq_replicate, List.length_range]
  | succ k ih =>
    intro hk
    rw [List.range_succ, List.foldl_append, ih (Nat.le_of_succ_le hk),
      List.foldl_cons, List.foldl_nil]
    apply List.ext_getElem
    · simp
    · intro i h1 h2
      have hin : i < n := by simpa using h2
      simp only [List.getElem_set, List.getElem_map, List.getElem_range]
      by_cases hki : k = i
      · subst hki
        simp
      · rw [if_neg hki]
        by_cases hik : i < k
        · simp [hik, Nat.lt_succ_of_lt hik]
        · have hik' : ¬ i < k + 1 := by omega
          simp [hik, hik']

theorem generateMockEmbedding_eq_map (sinF : Int → ℚ) (text : String) :
    generateMockEmbedding sinF text
      = (List.range 384).map (fun i : Nat => sinF (hashString text + i) * (1 / 2)) := by
  show (List.range 384).foldl
      (fun embedding i => embedding.set i (sinF (hashString text + i) * (1 / 2)))
      (List.replicate 384 (0 : ℚ)) = _
  have h := foldl_set_range (fun i => sinF (hashString text + i) * (1 / 2)) 384 384 le_rfl
  rw [h]
  exact List.map_congr_left fun a ha => by
    rw [if_pos (List.mem_range.mp ha)]

/-- C8: the embedding function returns a vector of the fixed dimension 384
on every input; it is deterministic (equal inputs give equal vectors); and
it does not fail on the empty string, whose hash is the reduce seed `0`, so
the call returns the fixed vector with entry `sin(i) * 0.5` at index `i`. -/
theorem c8_generateMockEmbedding_theorem (sinF : Int → ℚ) (text : String) :
    (generateMockEmbedding sinF text).length = 384
      ∧ (∀ t, t = text → generateMockEmbedding sinF t = generateMockEmbedding sinF text)
      ∧ hashString "" = 0
      ∧ generateMockEmbedding sinF ""
          = (List.range 384).map (fun i : Nat => sinF i * (1 / 2)) := by
  refine ⟨?_, fun t ht => by rw [ht], rfl, ?_⟩
  · rw [generateMockEmbedding_eq_map]
    simp
  · rw [generateMockEmbedding_eq_map]
    have h0 : hashString "" = 0 := rfl
    simp [h0]

/-- Witness for C8: the theorem applied to a concrete `sin` stand-in and the
input `"a"`. -/
theorem c8_generateMockEmbedding_witness :
    ("a" : String) = "a"
      ∧ generateMockEmbedding sinZero "a" = generateMockEmbedding sinZero "a"
      ∧ (generateMockEmbedding sinZero "a").length = 384 := by
  have h := c8_generateMockEmbedding_theorem sinZero "a"
  exact ⟨rfl, h.2.1 "a" rfl, h.1⟩

theorem removeByKey_no_key (k : String) (idx : List (String × OramaDoc))
    (h : k ∉ idx.map Prod.fst) : removeByKey k idx = idx := by
  induction idx with
  | nil => rfl
  | cons p t ih =>
    obtain ⟨k', d'⟩ := p
    have hk : ¬ k' = k := by
      intro he; exact h (by simp [he])
    have ht : k ∉ t.map Prod.fst := fun hm => h (List.mem_cons_of_mem _ hm)
    simp [removeByKey, hk, ih ht]

theorem storeRemoveQuad_sublist (s : List Quad) (q : Quad) :
    (storeRemoveQuad s q).Sublist s := by
  induction s with
  | nil => exact List.Sublist.refl []
  | cons x t ih =>
    by_cases hx : x = q
    · simp only [storeRemoveQuad, if_pos hx]
      exact List.sublist_cons_self x t
    · simp only [storeRemoveQuad, if_neg hx]
      exact ih.cons₂ x

theorem remove_keys_eq (q : Quad) :
    ∀ (s : List Quad) (idx : List (String × OramaDoc)), s.Nodup →
      (∀ q' ∈ s, generateQuadId q' = generateQuadId q → q' = q) →
      idx.map Prod.fst = s.map generateQuadId →
      (removeByKey (generateQuadId q) idx).map Prod.fst
        = (storeRemoveQuad s q).map generateQuadId := by
  intro s
  induction s with
  | nil =>
    intro idx _ _ hkeys
    have : idx = [] := by
      cases idx with
      | nil => rfl
      | cons p t => simp at hkeys
    subst this
    rfl
  | cons x t ih =>
    intro idx hnd hinj hkeys
    cases idx with
    | nil => simp at hkeys
    | cons p idx' =>
      obtain ⟨pk, pd⟩ := p
      simp only [List.map_cons, List.cons.injEq] at hkeys
      obtain ⟨h1, h2⟩ := hkeys
      by_cases hx : x = q
      · subst hx
        have hx_not : x ∉ t := (List.nodup_cons.mp hnd).1
        have hkey_not : generateQuadId x ∉ t.map generateQuadId := by
          intro hm
          obtain ⟨q', hq', hqe⟩ := List.mem_map.mp hm
          exact hx_not ((hinj q' (List.mem_cons_of_mem _ hq') hqe) ▸ hq')
        have hid : removeByKey (generateQuadId x) idx' = idx' :=
          removeByKey_no_key _ _ (h2 ▸ hkey_not)
        simp only [removeByKey, if_pos h1, hid, h2, storeRemoveQuad]
        simp
      · have hgx : generateQuadId x ≠ generateQuadId q :=
          fun he => hx (hinj x (List.mem_cons_self x t) he)
        have hpk : ¬ pk = generateQuadId q := fun he => hgx (h1 ▸ he)
        have hrec := ih idx' (List.nodup_cons.mp hnd).2
          (fun q' hq' => hinj q' (List.mem_cons_of_mem _ hq')) h2
        simp only [removeByKey, storeRemoveQuad, if_neg hx, List.map_cons, h1]
        rw [if_neg hgx]
        simp [hrec]

theorem inv_step_add (sinF : Int → ℚ) (S : List Quad) (q : Quad) (st : OramaState)
    (hq : q ∈ S) (hinjS : KeyInjOn S) (h : SyncInv S st) :
    SyncInv S (oramaStoreAddQuad sinF q st).1 := by
  obtain ⟨hnd, hkeys, hsub⟩ := h
  have hst : (oramaStoreAddQuad sinF q st).1
      = ⟨storeAddQuad st.store q,
          upsert (generateQuadId q)
            (quadToOramaDoc (generateMockEmbedding sinF) q (generateQuadId q))
            st.index⟩ := rfl
  rw [hst]
  by_cases hmem : q ∈ st.store
  · have hkmem : generateQuadId q ∈ st.index.map Prod.fst := by
      rw [hkeys]; exact List.mem_map_of_mem _ hmem
    have hstore : storeAddQuad st.store q = st.store := by
      simp [storeAddQuad, hmem]
    refine ⟨by rw [hstore]; exact hnd, ?_, by rw [hstore]; exact hsub⟩
    rw [hstore, upsert_map_fst, if_pos hkmem, hkeys]
  · have hknot : generateQuadId q ∉ st.index.map Prod.fst := by
      rw [hkeys]
      intro hm
      obtain ⟨q', hq', he⟩ := List.mem_map.mp hm
      exact hmem ((hinjS q' (hsub q' hq') q hq he) ▸ hq')
    have hstore : storeAddQuad st.store q = st.store ++ [q] := by
      simp [storeAddQuad, hmem]
    refine ⟨?_, ?_, ?_⟩
    · rw [hstore]
      exact List.nodup_append.mpr
        ⟨hnd, List.nodup_singleton q, by simpa [List.disjoint_singleton] using hmem⟩
    · rw [hstore, upsert_map_fst, if_neg hknot, hkeys, List.map_append]
      rfl
    · rw [hstore]
      intro x hx
      rcases List.mem_append.mp hx with hx | hx
      · exact hsub x hx
      · rw [List.mem_singleton.mp hx]; exact hq

theorem inv_step_remove (sinF : Int → ℚ) (S : List Quad) (q : Quad) (st : OramaState)
    (hq : q ∈ S) (hinjS : KeyInjOn S) (h : SyncInv S st) :
    SyncInv S (oramaStoreRemoveQuad sinF q st).1 := by
  obtain ⟨hnd, hkeys, hsub⟩ := h
  have hst : (oramaStoreRemoveQuad sinF q st).1
      = ⟨storeRemoveQuad st.store q, removeByKey (generateQuadId q) st.index⟩ := rfl
  rw [hst]
  have hlocal : ∀ q' ∈ st.store, generateQuadId q' = generateQuadId q → q' = q :=
    fun q' hq' he => hinjS q' (hsub q' hq') q hq he
  refine ⟨(storeRemoveQuad_sublist st.store q).nodup hnd, ?_, ?_⟩
  · exact remove_keys_eq q st.store st.index hnd hlocal hkeys
  · exact fun x hx => hsub x ((storeRemoveQuad_sublist st.store q).subset hx)

theorem foldSteps_inv (sinF : Int → ℚ) (S : List Quad) (hinjS : KeyInjOn S) :
    ∀ (ops : List MutOp) (st : OramaState), SyncInv S st →
      (∀ op ∈ ops, MutOp.quad op ∈ S) →
      SyncInv S (ops.foldl (runStep sinF) st) := by
  intro ops
  induction ops with
  | nil => intro st h _; exact h
  | cons op t ih =>
    intro st h hops
    rw [List.foldl_cons]
    refine ih _ ?_ fun o ho => hops o (List.mem_cons_of_mem _ ho)
    have hop : MutOp.quad op ∈ S := hops op (List.mem_cons_self op t)
    cases op with
    | add q => exact inv_step_add sinF S q st hop hinjS h
    | remove q => exact inv_step_remove sinF S q st hop hinjS h

/-- C1 (amended): for every interleaving of `addQuad`/`removeQuad` mutation
calls on a freshly constructed store in which no two distinct facts involved
share a derived key, after each mutation call returns the number of
documents in the search index equals the number of facts in the fact store,
and `isInSync()` returns true. -/
theorem c1_count_sync_theorem (sinF : Int → ℚ) (ops : List MutOp)
    (hinj : KeyInjOn (opsQuads ops)) (n : Nat) :
    getDocumentCount (runOps sinF (ops.take n)) = getSize (runOps sinF (ops.take n))
      ∧ isInSync (runOps sinF (ops.take n)) = true := by
  have hops : ∀ op ∈ ops.take n, MutOp.quad op ∈ opsQuads ops :=
    fun op hop => List.mem_map_of_mem _ (List.take_subset n ops hop)
  have hinit : SyncInv (opsQuads ops) initialOramaState :=
    ⟨List.nodup_nil, rfl, by intro q hq; cases hq⟩
  have hinv := foldSteps_inv sinF (opsQuads ops) hinj (ops.take n)
    initialOramaState hinit hops
  obtain ⟨_, hkeys, _⟩ := hinv
  have hcount : getDocumentCount (runOps sinF (ops.take n))
      = getSize (runOps sinF (ops.take n)) := by
    have := congrArg List.length hkeys
    simpa [getDocumentCount, getSize, runOps] using this
  exact ⟨hcount, by simp [isInSync, hcount]⟩

/-- Witness for C1: the amended theorem applied to the concrete interleaving
add `qSample1`, remove `qSample1`, add `qSample2`, whose quads have pairwise
distinct keys. -/
theorem c1_count_sync_witness :
    KeyInjOn (opsQuads [MutOp.add qSample1, MutOp.remove qSample1, MutOp.add qSample2])
      ∧ isInSync (runOps sinZero
          ([MutOp.add qSample1, MutOp.remove qSample1, MutOp.add qSample2].take 3))
        = true := by
  have hinj : KeyInjOn
      (opsQuads [MutOp.add qSample1, MutOp.remove qSample1, MutOp.add qSample2]) := by
    decide
  exact ⟨hinj,
    (c1_count_sync_theorem sinZero
      [MutOp.add qSample1, MutOp.remove qSample1, MutOp.add qSample2] hinj 3).2⟩

/-- Counterexample for C1 as frozen: the interleaving that adds the two
distinct facts `qNamedSubject` and `qBlankSubject` — which share the derived
key, since the key ignores the subject's term type — leaves the fact store
with two facts but the search index with one document, and `isInSync()`
returns false after the second call. -/
theorem c1_count_sync_counterexample :
    getSize (runOps sinZero [MutOp.add qNamedSubject, MutOp.add qBlankSubject]) = 2
      ∧ getDocumentCount
          (runOps sinZero [MutOp.add qNamedSubject, MutOp.add qBlankSubject]) = 1
      ∧ isInSync (runOps sinZero [MutOp.add qNamedSubject, MutOp.add qBlankSubject])
        = false := by
  refine ⟨?_, ?_, ?_⟩ <;> decide

end N3Sync
